import Mathlib

/-!
Formal model of the mortgage amortization engine in `mortgage.py`.

Quantities are represented by their magnitudes in canonical units: money in
dollars, time in months, rates as dimensionless fractions (so `4 percent /
year` is stored as `4/100` per year), and discount points as plain numbers.
Under these conventions every unit conversion performed by the source is a
fixed rational factor: `percent -> dimensionless` multiplies the magnitude by
`1/100`, and `per year -> per month` divides by `12`.  All arithmetic is exact
over `ℚ`.  The `while` loop of `payment_schedule` is modelled with explicit
fuel: a result of `none` means the loop did not terminate within the given
fuel, `some l` means the loop terminated and yielded the list `l`.
-/

/-- Loan state (`mortgage.py` lines 18-35).  Fields are the magnitudes of the
source's quantities in canonical units: `loan_amount`, `home_value` and
`base_closing_costs` in dollars; `duration` in months; `base_rate` as a
dimensionless fraction per year; `cost_per_point` as a fraction of the loan
amount per point; `rate_reduction_per_point` as a fraction per year per
point. -/
structure Mortgage where
  loan_amount : ℚ
  home_value : ℚ
  duration : ℚ
  base_rate : ℚ
  base_closing_costs : ℚ
  cost_per_point : ℚ
  rate_reduction_per_point : ℚ
deriving DecidableEq

/-- Lines 37-38: `base_rate - rate_reduction_per_point * n_points`. -/
def Mortgage.effective_rate (self : Mortgage) (n_points : ℚ) : ℚ :=
  self.base_rate - self.rate_reduction_per_point * n_points

/-- Lines 40-41: `base_closing_costs + cost_per_point * loan_amount * n_points`. -/
def Mortgage.actual_closing_costs (self : Mortgage) (n_points : ℚ) : ℚ :=
  self.base_closing_costs + self.cost_per_point * self.loan_amount * n_points

/-- Lines 43-45: `home_value - loan_amount`. -/
def Mortgage.down_payment (self : Mortgage) : ℚ :=
  self.home_value - self.loan_amount

/-- Lines 47-49: `ceil(duration / Q(1, 'month'))`.  With `duration` stored in
months this is the ceiling of `duration`, as a (possibly nonpositive)
integer, exactly as Python's `math.ceil` returns an `int`. -/
def Mortgage.n_payments (self : Mortgage) : ℤ :=
  ⌈self.duration⌉

/-- Lines 53-54: the effective rate converted to a dimensionless monthly
fraction.  The source converts `effective_rate` (a fraction per year) to
`percent / month` and then takes the magnitude of `dimensionless / month`;
the net effect on the canonical magnitude is division by 12. -/
def Mortgage.monthlyRate (self : Mortgage) (n_points : ℚ) : ℚ :=
  self.effective_rate n_points / 12

/-- Lines 51-55: the amortizing-loan fixed payment, in dollars per month.
`compounding = (1 + r) ^ n_payments` with an integer exponent (Python's `**`
on an `int` exponent), then `loan_amount * r * compounding / (compounding - 1)`. -/
def Mortgage.base_payment (self : Mortgage) (n_points : ℚ) : ℚ :=
  let r := self.monthlyRate n_points
  let compounding := (1 + r) ^ self.n_payments
  self.loan_amount * r * compounding / (compounding - 1)

/-- Lines 66-77, the body of one iteration of the `while` loop, producing the
next state and the yielded payment.  `base` is the fixed `base_payment * 1
month` (dollars) computed once at line 62; `strat remaining` is the
overpayment strategy's result (dollars per month), multiplied by one month at
line 71.  Note the source's line 75 reassigns only `payment`, not
`principal`, and `principal + interest` equals the original `payment`. -/
def scheduleStep (self : Mortgage) (n_points : ℚ) (strat : Mortgage → ℚ)
    (base : ℚ) (remaining : Mortgage) : Mortgage × ℚ :=
  let interest := remaining.loan_amount * self.monthlyRate n_points
  let payment := base + strat remaining
  let principal := payment - interest
  let payment2 := if principal > remaining.loan_amount then principal + interest else payment
  ({ self with loan_amount := remaining.loan_amount - principal }, payment2)

/-- Lines 65-77: the `while remaining.loan_amount > Q(0.1, 'dollars')` loop,
with explicit fuel.  `none` means the loop was still running when the fuel
ran out; `some l` means the loop terminated having yielded `l`. -/
def scheduleAux (self : Mortgage) (n_points : ℚ) (strat : Mortgage → ℚ)
    (base : ℚ) : ℕ → Mortgage → Option (List (Mortgage × ℚ))
  | 0, remaining =>
      if remaining.loan_amount > 1/10 then none else some []
  | fuel + 1, remaining =>
      if remaining.loan_amount > 1/10 then
        let step := scheduleStep self n_points strat base remaining
        (scheduleAux self n_points strat base fuel step.1).map (fun rest => step :: rest)
      else some []

/-- Lines 57-77: `payment_schedule`.  A missing strategy defaults to the
zero strategy (lines 58-59); `base` is `base_payment * 1 month` in dollars
(line 62). -/
def Mortgage.payment_schedule (self : Mortgage) (n_points : ℚ)
    (overpayment_strategy : Option (Mortgage → ℚ)) (fuel : ℕ) :
    Option (List (Mortgage × ℚ)) :=
  let strat := overpayment_strategy.getD (fun _ => 0)
  scheduleAux self n_points strat (self.base_payment n_points) fuel self

/-- Lines 79-83: `total_cost` materializes the schedule and returns
`down_payment + actual_closing_costs + sum of payments` paired with the
number of yielded months (the schedule's length). -/
def Mortgage.total_cost (self : Mortgage) (n_points : ℚ)
    (overpayment_strategy : Option (Mortgage → ℚ)) (fuel : ℕ) :
    Option (ℚ × ℕ) :=
  (self.payment_schedule n_points overpayment_strategy fuel).map fun l =>
    (self.down_payment + self.actual_closing_costs n_points + (l.map Prod.snd).sum, l.length)

/-- Sum of the per-step principals of a yielded schedule: each step's
principal is its yielded payment minus that step's interest, where the
interest is the balance entering the step times the monthly rate `r`.
The first argument threads the balance entering the next step. -/
def sumPrincipal (r : ℚ) : ℚ → List (Mortgage × ℚ) → ℚ
  | _, [] => 0
  | prev, p :: rest => (p.2 - prev * r) + sumPrincipal r p.1.loan_amount rest

/-- Loan amount of the final yielded state of a schedule, or the starting
balance `b` when the schedule is empty. -/
def finalAmount (b : ℚ) : List (Mortgage × ℚ) → ℚ
  | [] => b
  | p :: rest => finalAmount p.1.loan_amount rest

/-- Agreement of a derived loan state with the original on every field other
than `loan_amount`. -/
def sameFrame (a b : Mortgage) : Prop :=
  a.home_value = b.home_value ∧ a.duration = b.duration ∧ a.base_rate = b.base_rate ∧
    a.base_closing_costs = b.base_closing_costs ∧ a.cost_per_point = b.cost_per_point ∧
    a.rate_reduction_per_point = b.rate_reduction_per_point

/-- Dimension exponents over the base units money (dollars), month and
discount point, for checking which physical dimension an expression of the
source carries. -/
structure Dim where
  money : ℤ
  month : ℤ
  point : ℤ
deriving DecidableEq

/-- Multiplying quantities adds their dimension exponents. -/
def Dim.mul (a b : Dim) : Dim :=
  ⟨a.money + b.money, a.month + b.month, a.point + b.point⟩

/-- Adding quantities is defined only between equal dimensions. -/
def Dim.add (a b : Dim) : Option Dim :=
  if a = b then some a else none

/-- Dimension of a money (dollar) quantity. -/
def dimMoney : Dim := ⟨1, 0, 0⟩

/-- Dimension of a one-month time quantity. -/
def dimMonth : Dim := ⟨0, 1, 0⟩

/-- Dimension of a money-per-month quantity. -/
def dimMoneyPerMonth : Dim := ⟨1, -1, 0⟩

/-- Dimension of `base` at line 62: `base_payment` (dollars per month, forced
by the `.to('dollars / month')` on line 55) times one month. -/
def baseDim : Dim := Dim.mul dimMoneyPerMonth dimMonth

/-- Dimension of the payment yielded at each step (lines 71 and 77): `base`
plus the overpayment strategy's result (dollars per month, line 59) times one
month. -/
def schedulePaymentDim : Option Dim :=
  Dim.add baseDim (Dim.mul dimMoneyPerMonth dimMonth)

/-- Concrete loan used as a witness input: 1000 dollars borrowed on a 2000
dollar home over one month at 12 percent per year, no closing costs and no
point pricing.  Its monthly rate at zero points is `1/100` and its base
payment is `1010` dollars per month. -/
def exLoan : Mortgage :=
  ⟨1000, 2000, 1, 12/100, 0, 0, 0⟩

/-- Concrete one-payment loan (1 dollar borrowed over one month at 12 percent
per year): both the zero-strategy schedule and any overpaying schedule take
exactly one step. -/
def ex2 : Mortgage :=
  ⟨1, 2, 1, 12/100, 0, 0, 0⟩

/-- Concrete loan whose balance is already at the 10-cent threshold. -/
def exSmall : Mortgage :=
  ⟨1/10, 1, 1, 12/100, 0, 0, 0⟩

/-- Loan with the source's default field values: 500000 dollars on a 600000
dollar home over 10 years (120 months) at 4 percent per year, 5000 dollars
base closing costs, 1 percent of the loan per point, 0.125 percent per year
of rate reduction per point. -/
def defaultLoan : Mortgage :=
  ⟨500000, 600000, 120, 4/100, 5000, 1/100, 1/800⟩

/-- Value of the monthly rate of `exLoan` at zero points. -/
theorem exLoan_monthlyRate : exLoan.monthlyRate 0 = 1/100 := by
  norm_num [Mortgage.monthlyRate, Mortgage.effective_rate, exLoan]

/-- Value of the fixed base payment of `exLoan` at zero points. -/
theorem exLoan_base_payment : exLoan.base_payment 0 = 1010 := by
  have h1 : exLoan.n_payments = 1 := by norm_num [Mortgage.n_payments, exLoan]
  simp only [Mortgage.base_payment, h1, exLoan_monthlyRate]
  norm_num [exLoan]

/-- Zero-strategy schedule of `exLoan`: one step, retiring the loan exactly. -/
theorem exLoan_schedule_none : exLoan.payment_schedule 0 none 3 =
    some [({ exLoan with loan_amount := 0 }, 1010)] := by
  simp only [Mortgage.payment_schedule, Option.getD, exLoan_base_payment]
  norm_num [scheduleAux, scheduleStep, Mortgage.monthlyRate, Mortgage.effective_rate, exLoan]

/-- Schedule of `exLoan` with a constant 10000-dollar-per-month overpayment:
one step whose final state has a large negative balance, because line 75 of
the source reassigns `payment` to `principal + interest` (a no-op) instead of
reducing `principal` to the remaining balance. -/
theorem exLoan_schedule_over : exLoan.payment_schedule 0 (some fun _ => 10000) 3 =
    some [({ exLoan with loan_amount := -10000 }, 11010)] := by
  simp only [Mortgage.payment_schedule, Option.getD, exLoan_base_payment]
  norm_num [scheduleAux, scheduleStep, Mortgage.monthlyRate, Mortgage.effective_rate, exLoan]

/-- Second component of a schedule step: both branches of the source's clamp
at lines 74-75 yield the same payment, since `principal + interest` is
exactly the `payment` that `principal` was computed from. -/
theorem scheduleStep_snd (self : Mortgage) (n_points : ℚ) (strat : Mortgage → ℚ)
    (base : ℚ) (remaining : Mortgage) :
    (scheduleStep self n_points strat base remaining).2 = base + strat remaining := by
  simp only [scheduleStep]
  split_ifs with h
  · ring
  · rfl

/-- Balance of the state produced by one schedule step. -/
theorem scheduleStep_loan (self : Mortgage) (n_points : ℚ) (strat : Mortgage → ℚ)
    (base : ℚ) (remaining : Mortgage) :
    (scheduleStep self n_points strat base remaining).1.loan_amount =
      remaining.loan_amount -
        (base + strat remaining - remaining.loan_amount * self.monthlyRate n_points) :=
  rfl

/-- Each step's new state is built from the original `self` with only
`loan_amount` replaced (line 76). -/
theorem scheduleStep_frame (self : Mortgage) (n_points : ℚ) (strat : Mortgage → ℚ)
    (base : ℚ) (remaining : Mortgage) :
    sameFrame (scheduleStep self n_points strat base remaining).1 self :=
  ⟨rfl, rfl, rfl, rfl, rfl, rfl⟩

/-- A balance at or below the 10-cent threshold yields the empty schedule,
whatever the fuel. -/
theorem scheduleAux_empty (self : Mortgage) (n_points : ℚ) (strat : Mortgage → ℚ)
    (base : ℚ) (fuel : ℕ) (remaining : Mortgage)
    (h : remaining.loan_amount ≤ 1/10) :
    scheduleAux self n_points strat base fuel remaining = some [] := by
  cases fuel <;> simp [scheduleAux] <;> linarith

/-- Balance conservation along the loop: over any terminating run of the
`while` loop, the yielded payments minus their per-step interests sum to the
drop in balance from the starting state to the final yielded state. -/
theorem scheduleAux_sum (self : Mortgage) (n_points : ℚ) (strat : Mortgage → ℚ)
    (base : ℚ) :
    ∀ (fuel : ℕ) (remaining : Mortgage) (l : List (Mortgage × ℚ)),
      scheduleAux self n_points strat base fuel remaining = some l →
      sumPrincipal (self.monthlyRate n_points) remaining.loan_amount l =
        remaining.loan_amount - finalAmount remaining.loan_amount l := by
  intro fuel
  induction fuel with
  | zero =>
      intro remaining l h
      simp only [scheduleAux] at h
      by_cases hc : remaining.loan_amount > 1/10
      · rw [if_pos hc] at h
        cases h
      · rw [if_neg hc] at h
        have hl : ([] : List (Mortgage × ℚ)) = l := Option.some.inj h
        subst hl
        simp [sumPrincipal, finalAmount]
  | succ fuel ih =>
      intro remaining l h
      simp only [scheduleAux] at h
      by_cases hc : remaining.loan_amount > 1/10
      · rw [if_pos hc] at h
        obtain ⟨rest, hrest, hl⟩ := Option.map_eq_some'.mp h
        subst hl
        have hsum := ih _ rest hrest
        simp only [sumPrincipal, finalAmount, scheduleStep_snd, scheduleStep_loan] at hsum ⊢
        rw [hsum]
        ring
      · rw [if_neg hc] at h
        have hl : ([] : List (Mortgage × ℚ)) = l := Option.some.inj h
        subst hl
        simp [sumPrincipal, finalAmount]

/-- Frame property along the loop: every yielded state is `self` with only
`loan_amount` replaced. -/
theorem scheduleAux_frame (self : Mortgage) (n_points : ℚ) (strat : Mortgage → ℚ)
    (base : ℚ) :
    ∀ (fuel : ℕ) (remaining : Mortgage) (l : List (Mortgage × ℚ)),
      scheduleAux self n_points strat base fuel remaining = some l →
      ∀ p ∈ l, sameFrame p.1 self := by
  intro fuel
  induction fuel with
  | zero =>
      intro remaining l h
      simp only [scheduleAux] at h
      by_cases hc : remaining.loan_amount > 1/10
      · rw [if_pos hc] at h
        cases h
      · rw [if_neg hc] at h
        have hl : ([] : List (Mortgage × ℚ)) = l := Option.some.inj h
        subst hl
        intro p hp
        cases hp
  | succ fuel ih =>
      intro remaining l h
      simp only [scheduleAux] at h
      by_cases hc : remaining.loan_amount > 1/10
      · rw [if_pos hc] at h
        obtain ⟨rest, hrest, hl⟩ := Option.map_eq_some'.mp h
        subst hl
        intro p hp
        rcases List.mem_cons.mp hp with hp | hp
        · subst hp
          exact scheduleStep_frame self n_points strat base remaining
        · exact ih _ rest hrest p hp
      · rw [if_neg hc] at h
        have hl : ([] : List (Mortgage × ℚ)) = l := Option.some.inj h
        subst hl
        intro p hp
        cases hp

/-- Comparison of two constant-extra runs of the loop: with a nonnegative
monthly rate, a run started at a smaller-or-equal balance and paying a
larger-or-equal constant extra terminates within the same fuel in at most as
many steps. -/
theorem scheduleAux_len_le (self : Mortgage) (n_points : ℚ) (base e1 e2 : ℚ)
    (hr : 0 ≤ self.monthlyRate n_points) (he : e1 ≤ e2) :
    ∀ (fuel : ℕ) (rem1 rem2 : Mortgage) (l1 : List (Mortgage × ℚ)),
      rem2.loan_amount ≤ rem1.loan_amount →
      scheduleAux self n_points (fun _ => e1) base fuel rem1 = some l1 →
      ∃ l2, scheduleAux self n_points (fun _ => e2) base fuel rem2 = some l2 ∧
        l2.length ≤ l1.length := by
  intro fuel
  induction fuel with
  | zero =>
      intro rem1 rem2 l1 hle h1
      simp only [scheduleAux] at h1 ⊢
      by_cases hc1 : rem1.loan_amount > 1/10
      · rw [if_pos hc1] at h1
        cases h1
      · rw [if_neg hc1] at h1
        have hl : ([] : List (Mortgage × ℚ)) = l1 := Option.some.inj h1
        subst hl
        have hc2 : ¬ rem2.loan_amount > 1/10 := fun hgt => hc1 (lt_of_lt_of_le hgt hle)
        rw [if_neg hc2]
        exact ⟨[], rfl, le_refl 0⟩
  | succ fuel ih =>
      intro rem1 rem2 l1 hle h1
      by_cases hc2 : rem2.loan_amount > 1/10
      · have hc1 : rem1.loan_amount > 1/10 := lt_of_lt_of_le hc2 hle
        simp only [scheduleAux, if_pos hc1] at h1
        obtain ⟨rest1, hrest1, hl⟩ := Option.map_eq_some'.mp h1
        subst hl
        have hnext : (scheduleStep self n_points (fun _ => e2) base rem2).1.loan_amount ≤
            (scheduleStep self n_points (fun _ => e1) base rem1).1.loan_amount := by
          rw [scheduleStep_loan, scheduleStep_loan]
          have hmul : rem2.loan_amount * self.monthlyRate n_points ≤
              rem1.loan_amount * self.monthlyRate n_points :=
            mul_le_mul_of_nonneg_right hle hr
          linarith
        obtain ⟨rest2, hrest2, hlen⟩ := ih _ _ rest1 hnext hrest1
        refine ⟨scheduleStep self n_points (fun _ => e2) base rem2 :: rest2, ?_, ?_⟩
        · simp only [scheduleAux, if_pos hc2, hrest2]
          rfl
        · simpa using Nat.succ_le_succ hlen
      · refine ⟨[], scheduleAux_empty self n_points _ base _ rem2 (not_lt.1 hc2), Nat.zero_le _⟩

/-- Value of the monthly rate of `ex2` at zero points. -/
theorem ex2_monthlyRate : ex2.monthlyRate 0 = 1/100 := by
  norm_num [Mortgage.monthlyRate, Mortgage.effective_rate, ex2]

/-- Value of the fixed base payment of `ex2` at zero points. -/
theorem ex2_base_payment : ex2.base_payment 0 = 101/100 := by
  have h1 : ex2.n_payments = 1 := by norm_num [Mortgage.n_payments, ex2]
  simp only [Mortgage.base_payment, h1, ex2_monthlyRate]
  norm_num [ex2]

/-- Zero-strategy schedule of `ex2`: a single step retiring the loan. -/
theorem ex2_schedule_none : ex2.payment_schedule 0 none 3 =
    some [({ ex2 with loan_amount := 0 }, 101/100)] := by
  simp only [Mortgage.payment_schedule, Option.getD, ex2_base_payment]
  norm_num [scheduleAux, scheduleStep, Mortgage.monthlyRate, Mortgage.effective_rate, ex2]

/-- Schedule of `ex2` with a constant overpayment of one dollar per month:
still a single step (every run with a balance above the threshold yields at
least one step, so a one-step baseline cannot be strictly beaten). -/
theorem ex2_schedule_over : ex2.payment_schedule 0 (some fun _ => 1) 3 =
    some [({ ex2 with loan_amount := -1 }, 201/100)] := by
  simp only [Mortgage.payment_schedule, Option.getD, ex2_base_payment]
  norm_num [scheduleAux, scheduleStep, Mortgage.monthlyRate, Mortgage.effective_rate, ex2]

/-- C1: the claim asserts that when `principal` exceeds the remaining
balance the payment is recomputed so the final payment exactly retires the
loan, leaving the final yielded `loan_amount` within 0.10 of zero and never
negative.  The code violates this: line 75 reassigns `payment` to
`principal + interest`, which is exactly the `payment` that `principal` was
computed from, and never reduces `principal` itself, so the final balance
overshoots.  At `exLoan` (positive rate `1/100` per month, first payment
11010 against first interest 10) the schedule terminates after one step with
final balance `-10000`, far below `-1/10`. -/
theorem payment_schedule_clamp_noop_negative_final :
    (exLoan.payment_schedule 0 (some fun _ => 10000) 3).map
        (finalAmount exLoan.loan_amount) = some (-10000) ∧
      ((-10000 : ℚ) < -(1/10)) := by
  constructor
  · rw [exLoan_schedule_over]
    simp [finalAmount]
  · norm_num

/-- C2: whenever the schedule is finite, `total_cost` returns the pair of
`down_payment + actual_closing_costs n_points + sum of all yielded payments`
and the number of yielded steps, which equals the length of the materialized
schedule exactly. -/
theorem total_cost_spec (self : Mortgage) (n_points : ℚ)
    (strat : Option (Mortgage → ℚ)) (fuel : ℕ) (l : List (Mortgage × ℚ))
    (h : self.payment_schedule n_points strat fuel = some l) :
    self.total_cost n_points strat fuel =
      some (self.down_payment + self.actual_closing_costs n_points +
        (l.map Prod.snd).sum, l.length) := by
  simp [Mortgage.total_cost, h]

/-- Witness for C2, at the concrete loan `exLoan` with no strategy. -/
theorem total_cost_spec_witness :
    exLoan.total_cost 0 none 3 =
      some (exLoan.down_payment + exLoan.actual_closing_costs 0 +
        (([({ exLoan with loan_amount := 0 }, 1010)]).map Prod.snd).sum, 1) :=
  total_cost_spec exLoan 0 none 3 _ exLoan_schedule_none

/-- C3: for a loan with at least one payment and a nonzero effective monthly
rate, `base_payment` is `loan_amount * r * (1 + r) ^ N / ((1 + r) ^ N - 1)`
where `r` is the effective monthly rate (the effective annual rate divided by
12) and `N` is the ceiling of the duration divided by one month. -/
theorem base_payment_formula (self : Mortgage) (n_points : ℚ)
    (_h1 : 1 ≤ ⌈self.duration⌉) (_h2 : self.effective_rate n_points / 12 ≠ 0) :
    self.base_payment n_points =
      self.loan_amount * (self.effective_rate n_points / 12) *
        (1 + self.effective_rate n_points / 12) ^ ⌈self.duration⌉ /
        ((1 + self.effective_rate n_points / 12) ^ ⌈self.duration⌉ - 1) :=
  rfl

/-- Witness for C3, at the concrete loan `exLoan` with zero points. -/
theorem base_payment_formula_witness :
    (1 ≤ ⌈exLoan.duration⌉ ∧ exLoan.effective_rate 0 / 12 ≠ 0) ∧
      exLoan.base_payment 0 =
        exLoan.loan_amount * (exLoan.effective_rate 0 / 12) *
          (1 + exLoan.effective_rate 0 / 12) ^ ⌈exLoan.duration⌉ /
          ((1 + exLoan.effective_rate 0 / 12) ^ ⌈exLoan.duration⌉ - 1) :=
  ⟨⟨by norm_num [exLoan], by norm_num [Mortgage.effective_rate, exLoan]⟩,
    base_payment_formula exLoan 0 (by norm_num [exLoan])
      (by norm_num [Mortgage.effective_rate, exLoan])⟩

/-- C4: over any finite schedule, the sum of the per-step principals (each
step's yielded payment minus that step's interest, the balance entering the
step times the monthly rate) equals the original `loan_amount` minus the
final yielded state's `loan_amount`, exactly. -/
theorem schedule_balance_conservation (self : Mortgage) (n_points : ℚ)
    (strat : Option (Mortgage → ℚ)) (fuel : ℕ) (l : List (Mortgage × ℚ))
    (h : self.payment_schedule n_points strat fuel = some l) :
    sumPrincipal (self.monthlyRate n_points) self.loan_amount l =
      self.loan_amount - finalAmount self.loan_amount l := by
  simp only [Mortgage.payment_schedule] at h
  exact scheduleAux_sum self n_points _ _ fuel self l h

/-- Witness for C4, at the concrete loan `exLoan` with no strategy. -/
theorem schedule_balance_conservation_witness :
    sumPrincipal (exLoan.monthlyRate 0) exLoan.loan_amount
        [({ exLoan with loan_amount := 0 }, 1010)] =
      exLoan.loan_amount -
        finalAmount exLoan.loan_amount [({ exLoan with loan_amount := 0 }, 1010)] :=
  schedule_balance_conservation exLoan 0 none 3 _ exLoan_schedule_none

/-- C5: a strategy that always returns zero produces exactly the same
schedule (same length, same states, same payments) as supplying no strategy
at all: the missing strategy defaults to the zero strategy at lines 58-59. -/
theorem zero_strategy_schedule_eq (self : Mortgage) (n_points : ℚ)
    (strat : Mortgage → ℚ) (fuel : ℕ) (h : ∀ m, strat m = 0) :
    self.payment_schedule n_points (some strat) fuel =
      self.payment_schedule n_points none fuel := by
  have hs : strat = fun _ => 0 := funext h
  subst hs
  rfl

/-- Witness for C5, at the concrete loan `exLoan`. -/
theorem zero_strategy_schedule_eq_witness :
    exLoan.payment_schedule 0 (some fun _ => 0) 3 = exLoan.payment_schedule 0 none 3 :=
  zero_strategy_schedule_eq exLoan 0 (fun _ => 0) 3 (fun _ => rfl)

/-- C6: for a loan whose rate reduction per point is nonnegative,
`effective_rate` equals `base_rate - rate_reduction_per_point * n_points`
and is monotonically decreasing in the number of points. -/
theorem effective_rate_formula_antitone (self : Mortgage) (n_points n1 n2 : ℚ)
    (h : 0 ≤ self.rate_reduction_per_point) (h12 : n1 ≤ n2) :
    self.effective_rate n_points =
        self.base_rate - self.rate_reduction_per_point * n_points ∧
      self.effective_rate n2 ≤ self.effective_rate n1 := by
  refine ⟨rfl, ?_⟩
  unfold Mortgage.effective_rate
  have hmul := mul_le_mul_of_nonneg_left h12 h
  linarith

/-- Witness for C6, at the source's default loan with points 1, 0 and 2. -/
theorem effective_rate_formula_antitone_witness :
    ((0:ℚ) ≤ defaultLoan.rate_reduction_per_point ∧ (0:ℚ) ≤ 2) ∧
      (defaultLoan.effective_rate 1 =
          defaultLoan.base_rate - defaultLoan.rate_reduction_per_point * 1 ∧
        defaultLoan.effective_rate 2 ≤ defaultLoan.effective_rate 0) :=
  ⟨⟨by norm_num [defaultLoan], by norm_num⟩,
    effective_rate_formula_antitone defaultLoan 1 0 2 (by norm_num [defaultLoan])
      (by norm_num)⟩

/-- C7 counterexample: the claim asserts a strictly-positive constant
overpayment strategy yields strictly fewer steps than the zero-strategy
baseline.  At the one-payment loan `ex2` (nonnegative monthly rate `1/100`,
strictly positive constant extra of one dollar per month) both schedules
have exactly one step, so the strict inequality fails. -/
theorem overpayment_not_strictly_fewer :
    ((0:ℚ) ≤ ex2.monthlyRate 0 ∧ (0:ℚ) < 1) ∧
      (ex2.payment_schedule 0 (some fun _ => 1) 3).map List.length = some 1 ∧
      (ex2.payment_schedule 0 none 3).map List.length = some 1 := by
  refine ⟨⟨?_, by norm_num⟩, ?_, ?_⟩
  · rw [ex2_monthlyRate]; norm_num
  · rw [ex2_schedule_over]; rfl
  · rw [ex2_schedule_none]; rfl

/-- C7 amended: for a loan with nonnegative effective monthly rate, a
strictly-positive constant overpayment strategy terminates within the same
fuel and yields at most as many steps as the zero-strategy baseline (a
strict decrease is impossible in general: any baseline of length one is
matched, not beaten). -/
theorem overpayment_le_steps (self : Mortgage) (n_points e : ℚ) (fuel : ℕ)
    (l0 : List (Mortgage × ℚ)) (hr : 0 ≤ self.monthlyRate n_points) (he : 0 < e)
    (h0 : self.payment_schedule n_points none fuel = some l0) :
    ∃ l, self.payment_schedule n_points (some fun _ => e) fuel = some l ∧
      l.length ≤ l0.length := by
  simp only [Mortgage.payment_schedule, Option.getD] at h0 ⊢
  exact scheduleAux_len_le self n_points (self.base_payment n_points) 0 e hr he.le
    fuel self self l0 le_rfl h0

/-- Witness for the amended C7, at the concrete loan `exLoan` with a
constant extra of 10000 dollars per month. -/
theorem overpayment_le_steps_witness :
    ((0:ℚ) ≤ exLoan.monthlyRate 0 ∧ (0:ℚ) < 10000) ∧
      ∃ l, exLoan.payment_schedule 0 (some fun _ => 10000) 3 = some l ∧
        l.length ≤ [({ exLoan with loan_amount := 0 }, 1010)].length :=
  ⟨⟨by rw [exLoan_monthlyRate]; norm_num, by norm_num⟩,
    overpayment_le_steps exLoan 0 10000 3 _ (by rw [exLoan_monthlyRate]; norm_num)
      (by norm_num) exLoan_schedule_none⟩

/-- C8: every state yielded by the schedule agrees with the original loan on
every field except `loan_amount`: each step builds its state from the
original `self` with only `loan_amount` replaced (line 76). -/
theorem schedule_frame (self : Mortgage) (n_points : ℚ)
    (strat : Option (Mortgage → ℚ)) (fuel : ℕ) (l : List (Mortgage × ℚ))
    (h : self.payment_schedule n_points strat fuel = some l) :
    ∀ p ∈ l, sameFrame p.1 self := by
  simp only [Mortgage.payment_schedule] at h
  exact scheduleAux_frame self n_points _ _ fuel self l h

/-- Witness for C8, at the concrete loan `exLoan` and the single state its
schedule yields. -/
theorem schedule_frame_witness :
    sameFrame ({ exLoan with loan_amount := 0 } : Mortgage) exLoan :=
  schedule_frame exLoan 0 none 3 _ exLoan_schedule_none
    ({ exLoan with loan_amount := 0 }, 1010) (by simp)

/-- C9 counterexample: the claim asserts the yielded payments have dimension
money-per-month, but the generator multiplies the money-per-month base
payment and overpayment by one month before yielding (lines 62 and 71), so
the yielded payment's dimension is not money-per-month. -/
theorem schedulePaymentDim_ne_moneyPerMonth :
    schedulePaymentDim ≠ some dimMoneyPerMonth := by
  decide

/-- C9 amended: every payment yielded by the schedule is a quantity of
dimension money (the sequence elements are pairs of a `LoanState` and a
money payment). -/
theorem schedulePaymentDim_eq_money : schedulePaymentDim = some dimMoney := by
  decide

/-- C10: a loan whose balance is at most 0.10 money-units yields the empty
schedule for every strategy and fuel, and `total_cost` returns exactly the
down payment plus the actual closing costs, with a month count of zero. -/
theorem small_balance_empty_schedule (self : Mortgage) (n_points : ℚ)
    (strat : Option (Mortgage → ℚ)) (fuel : ℕ) (h : self.loan_amount ≤ 1/10) :
    self.payment_schedule n_points strat fuel = some [] ∧
      self.total_cost n_points strat fuel =
        some (self.down_payment + self.actual_closing_costs n_points, 0) := by
  have hs : self.payment_schedule n_points strat fuel = some [] := by
    simp only [Mortgage.payment_schedule]
    exact scheduleAux_empty self n_points _ _ fuel self h
  refine ⟨hs, ?_⟩
  simp [Mortgage.total_cost, hs]

/-- Witness for C10, at the concrete loan `exSmall` whose balance is exactly
at the threshold. -/
theorem small_balance_empty_schedule_witness :
    exSmall.loan_amount ≤ 1/10 ∧
      (exSmall.payment_schedule 0 none 7 = some [] ∧
        exSmall.total_cost 0 none 7 =
          some (exSmall.down_payment + exSmall.actual_closing_costs 0, 0)) :=
  ⟨by norm_num [exSmall],
    small_balance_empty_schedule exSmall 0 none 7 (by norm_num [exSmall])⟩
